import Mathlib

/-!
Verification of the `convert-esmodule` ES-module-to-CommonJS transform and of
the `TemplateList` focused-index logic of the codesandbox-client repository.

The transform itself ships outside the vendored sources (only its golden
snapshot tests are vendored), so the transform is modelled from the design
specification: modules are ordered lists of classified top-level statements
(the analyzer's view, spec §3/§4.1), and the rewrite engine emits CommonJS
output statements following the emission rules of spec §4.2, with a printer
per spec §4.3.  The `TemplateList` definitions are translated directly from
`packages/app/src/app/components/CreateNewSandbox/CreateSandbox/TemplateList/TemplateList.tsx`.
-/

/-- Modelled from the spec: one import specifier as written in the source,
either a plain name (`a`) or a renamed one (`b as c`, imported name first). -/
inductive ImportSpec where
  | plain (name : String)
  | renamed (imported : String) (localName : String)
deriving DecidableEq, Repr

/-- Modelled from the spec (§3, §4.1): a classified top-level module
statement, the analyzer's view of the source.  The transform implementation
is not vendored; this is the statement taxonomy of spec §4.1: named imports,
default imports, export declarations (`export function f`/`export const x`),
`export default` (with the declared name when the exported value is a named
function or class, `none` for the expression form), named and wildcard
re-exports, top-level assignments (classified as export mutations when the
target is already exported), residual plain statements, comments, and an
unsupported module-syntax form (spec §7, UnsupportedConstruct). -/
inductive Stmt where
  | importNamed (specs : List ImportSpec) (path : String)
  | importDefault (localName : String) (path : String)
  | exportDecl (declText : String) (names : List String)
  | exportDefaultDecl (declText : String) (declaredName : Option String)
  | reexportNamed (entries : List (String × String)) (path : String)
  | reexportWildcard (path : String)
  | assign (name : String) (rhsText : String)
  | plain (text : String)
  | comment (text : String)
  | unsupported (text : String)
deriving DecidableEq, Repr

/-- Modelled from the spec (§3): one imported name — local name, imported
name (with the sentinel "default" for default imports), source path. -/
structure ImportBinding where
  localName : String
  importedName : String
  path : String
deriving DecidableEq, Repr

/-- Modelled from the spec (§4.1): classify one import specifier.  `a`
yields local "a" → imported "a"; `b as c` yields local "c" → imported "b". -/
def analyzeImportSpec (path : String) : ImportSpec → ImportBinding
  | .plain n => ⟨n, n, path⟩
  | .renamed imp loc => ⟨loc, imp, path⟩

/-- Modelled from the spec (§4.1): the ImportBindings of one named-import
statement, in source order. -/
def analyzeImportSpecs (specs : List ImportSpec) (path : String) : List ImportBinding :=
  specs.map (analyzeImportSpec path)

/-- Modelled from the spec (§4.2 rule 2, §9): deterministic synthetic
module-local name derived from a source path, a pure function of the path. -/
def moduleNameForPath (path : String) : String :=
  "$csb__" ++ String.mk (path.toList.map (fun c => if c.isAlphanum then c else '_'))

/-- Modelled from the spec (§4.1): synthetic local name introduced for an
`export default <expression>` with no declared name. -/
def syntheticDefaultName : String := "$csb__default"

/-- Modelled from the spec (§3): name of the synthetic interop helper. -/
def interopHelperName : String := "$_csb__interopRequireDefault"

/-- Modelled from the spec: right-hand-side expressions of emitted
CommonJS statements. -/
inductive Expr where
  | ident (name : String)
  | member (objName : String) (propName : String)
  | interopDefault (moduleName : String)
  | raw (text : String)
deriving DecidableEq, Repr

/-- Modelled from the spec (§4.2): the emitted CommonJS statement forms:
the `__esModule` marker, `require` calls, local variable bindings, export
assignments, the wildcard runtime forwarding loop, plain assignments,
residual statements, comments and the interop helper declaration. -/
inductive OutStmt where
  | esModuleMarker
  | requireStmt (localName : String) (path : String)
  | varBind (localName : String) (rhs : Expr)
  | exportAssign (exportedName : String) (rhs : Expr)
  | wildcardForward (moduleName : String)
  | assign (name : String) (rhsText : String)
  | plain (text : String)
  | comment (text : String)
  | interopHelperDecl
deriving DecidableEq, Repr

/-- Modelled from the spec (§3): per-invocation rewrite state — the source
paths already required (first-reference order) and the exported-name map
(local name ↦ exported name, most recent first). -/
structure ConvertState where
  required : List String
  exported : List (String × String)
deriving DecidableEq, Repr

/-- The source path referenced by a statement, when it references one. -/
def stmtPath : Stmt → Option String
  | .importNamed _ p => some p
  | .importDefault _ p => some p
  | .reexportNamed _ p => some p
  | .reexportWildcard p => some p
  | _ => none

/-- Modelled from the spec (§4.1): the export bindings a statement adds
(local name, exported name). -/
def stmtExports : Stmt → List (String × String)
  | .exportDecl _ ns => ns.map (fun n => (n, n))
  | .exportDefaultDecl _ (some n) => [(n, "default")]
  | .exportDefaultDecl _ none => [(syntheticDefaultName, "default")]
  | _ => []

/-- Modelled from the spec (§4.2 rule 2): the `require` statement emitted at
a statement that references a path, when the path was not required yet;
paths already required are coalesced into the earlier `require`. -/
def stmtRequires (st : ConvertState) (s : Stmt) : List OutStmt :=
  match stmtPath s with
  | some p => if p ∈ st.required then [] else [OutStmt.requireStmt (moduleNameForPath p) p]
  | none => []

/-- The required-path list after processing one statement. -/
def stmtNewRequired (st : ConvertState) (s : Stmt) : List String :=
  match stmtPath s with
  | some p => if p ∈ st.required then st.required else st.required ++ [p]
  | none => st.required

/-- Modelled from the spec (§4.2 rules 3-8): the CommonJS statements a
classified statement rewrites to, apart from the coalesced `require`:
named-import bindings become property reads on the required module, default
imports go through the interop helper, export declarations keep the
declaration and append export assignments, default-expression exports bind a
synthetic name, named re-exports copy (possibly renamed) keys, wildcard
re-exports emit the runtime forwarding loop, an assignment to an
already-exported name re-emits the export assignment immediately after it,
comments are dropped and residual statements pass through. -/
def stmtBody (st : ConvertState) : Stmt → List OutStmt
  | .importNamed specs p =>
      (analyzeImportSpecs specs p).map
        (fun b => OutStmt.varBind b.localName (Expr.member (moduleNameForPath p) b.importedName))
  | .importDefault l p => [OutStmt.varBind l (Expr.interopDefault (moduleNameForPath p))]
  | .exportDecl d ns => OutStmt.plain d :: ns.map (fun n => OutStmt.exportAssign n (Expr.ident n))
  | .exportDefaultDecl d (some n) =>
      [OutStmt.plain d, OutStmt.exportAssign "default" (Expr.ident n)]
  | .exportDefaultDecl d none =>
      [OutStmt.varBind syntheticDefaultName (Expr.raw d),
       OutStmt.exportAssign "default" (Expr.ident syntheticDefaultName)]
  | .reexportNamed es p =>
      es.map (fun e => OutStmt.exportAssign e.1 (Expr.member (moduleNameForPath p) e.2))
  | .reexportWildcard p => [OutStmt.wildcardForward (moduleNameForPath p)]
  | .assign n r =>
      match st.exported.lookup n with
      | some e => [OutStmt.assign n r, OutStmt.exportAssign e (Expr.ident n)]
      | none => [OutStmt.assign n r]
  | .plain t => [OutStmt.plain t]
  | .comment _ => []
  | .unsupported t => [OutStmt.plain t]

/-- Rewrite state after one statement. -/
def stepState (st : ConvertState) (s : Stmt) : ConvertState :=
  ⟨stmtNewRequired st s, stmtExports s ++ st.exported⟩

/-- Output of one statement: its coalesced `require`, then its body. -/
def stepOut (st : ConvertState) (s : Stmt) : List OutStmt :=
  stmtRequires st s ++ stmtBody st s

/-- Modelled from the spec (§2, single-pass pipeline): rewrite the statement
list in order, threading the per-invocation state. -/
def rewriteAll (st : ConvertState) : List Stmt → List OutStmt
  | [] => []
  | s :: rest => stepOut st s ++ rewriteAll (stepState st s) rest

/-- Rewrite state after a statement list. -/
def stateAfter (st : ConvertState) : List Stmt → ConvertState
  | [] => st
  | s :: rest => stateAfter (stepState st s) rest

/-- Whether a statement introduces an ExportBinding or ReexportDirective. -/
def addsExport : Stmt → Bool
  | .exportDecl _ _ => true
  | .exportDefaultDecl _ _ => true
  | .reexportNamed _ _ => true
  | .reexportWildcard _ => true
  | _ => false

/-- Whether the module has any export binding or re-export directive. -/
def hasExports (m : List Stmt) : Bool := m.any addsExport

/-- Whether a statement is a default import. -/
def isDefaultImport : Stmt → Bool
  | .importDefault _ _ => true
  | _ => false

/-- Whether the module has at least one default import. -/
def hasDefaultImport (m : List Stmt) : Bool := m.any isDefaultImport

/-- The empty per-invocation state: nothing required, nothing exported. -/
def initialState : ConvertState := ⟨[], []⟩

/-- Modelled from the spec (§4.2): the whole transform on one module.  The
implementation is not vendored; per the emission rules, the `__esModule`
marker leads (exactly once, only when some export binding or re-export
directive exists), the rewritten statements follow in order, and the interop
helper declaration closes the output (only when some default import used
it). -/
def convertEsModule (m : List Stmt) : List OutStmt :=
  (if hasExports m then [OutStmt.esModuleMarker] else [])
    ++ rewriteAll initialState m
    ++ (if hasDefaultImport m then [OutStmt.interopHelperDecl] else [])

/-- Modelled from the spec (§4.2 rule 7, §9): the run-time behaviour of the
emitted wildcard forwarding loop on the key set of the required module,
which is only known at run time: it skips "default" and "__esModule" and
forwards every other key. -/
def wildcardForwardedKeys (keys : List String) : List String :=
  keys.filter (fun k => k ≠ "default" && k ≠ "__esModule")

/-- Whether a statement is an unsupported module-syntax form (spec §7). -/
def isUnsupported : Stmt → Bool
  | .unsupported _ => true
  | _ => false

/-- Modelled from the spec (§6, §7): the external interface of the
transform.  It either returns the output statements or fails loudly on an
UnsupportedConstruct; all errors surface synchronously. -/
def convertChecked (m : List Stmt) : Except String (List OutStmt) :=
  if m.any isUnsupported then Except.error "UnsupportedConstruct"
  else Except.ok (convertEsModule m)

/-- Modelled from the spec (§5): a sequence of independent invocations of
the transform, one module each; no state is carried between invocations. -/
def runAll (ms : List (List Stmt)) : List (Except String (List OutStmt)) :=
  ms.map convertChecked

/-- Print an import specifier back to source form. -/
def printImportSpec : ImportSpec → String
  | .plain n => n
  | .renamed imp loc => imp ++ " as " ++ loc

/-- Modelled from the spec (§4.3): source form of a classified statement. -/
def printStmt : Stmt → String
  | .importNamed specs p =>
      "import \x7b " ++ String.intercalate ", " (specs.map printImportSpec)
        ++ " \x7d from \"" ++ p ++ "\";"
  | .importDefault l p => "import " ++ l ++ " from \"" ++ p ++ "\";"
  | .exportDecl d _ => "export " ++ d
  | .exportDefaultDecl d _ => "export default " ++ d
  | .reexportNamed es p =>
      "export \x7b " ++ String.intercalate ", " (es.map (fun e => e.2 ++ " as " ++ e.1))
        ++ " \x7d from \"" ++ p ++ "\";"
  | .reexportWildcard p => "export * from \"" ++ p ++ "\";"
  | .assign n r => n ++ " = " ++ r ++ ";"
  | .plain t => t
  | .comment t => "//" ++ t
  | .unsupported t => t

/-- Print an emitted expression. -/
def printExpr : Expr → String
  | .ident n => n
  | .member o p => o ++ "." ++ p
  | .interopDefault m => interopHelperName ++ "(" ++ m ++ ").default"
  | .raw t => t

/-- Modelled from the spec (§4.3): serialize one emitted statement. -/
def printOutStmt : OutStmt → String
  | .esModuleMarker => "Object.defineProperty(exports, \"__esModule\", \x7b value: true \x7d);"
  | .requireStmt n p => "var " ++ n ++ " = require(\"" ++ p ++ "\");"
  | .varBind n e => "var " ++ n ++ " = " ++ printExpr e ++ ";"
  | .exportAssign e r => "exports." ++ e ++ " = " ++ printExpr r ++ ";"
  | .wildcardForward m =>
      "Object.keys(" ++ m ++ ").forEach(function (key) \x7b if (key === \"default\" || key === \"__esModule\") return; exports[key] = " ++ m ++ "[key]; \x7d);"
  | .assign n r => n ++ " = " ++ r ++ ";"
  | .plain t => t
  | .comment t => "//" ++ t
  | .interopHelperDecl =>
      "function " ++ interopHelperName ++ "(obj) \x7b return obj && obj.__esModule ? obj : \x7b default: obj \x7d; \x7d"

/-- Modelled from the spec (§4.3): source text of a module. -/
def printModule (m : List Stmt) : String :=
  String.intercalate "\n" (m.map printStmt)

/-- Modelled from the spec (§4.3): output text of a transformed module. -/
def printOutput (l : List OutStmt) : String :=
  String.intercalate "\n" (l.map printOutStmt)

/-- Whether an emitted statement is the `__esModule` marker. -/
def isMarker : OutStmt → Bool
  | .esModuleMarker => true
  | _ => false

/-- Whether an emitted statement is the interop helper declaration. -/
def isHelper : OutStmt → Bool
  | .interopHelperDecl => true
  | _ => false

/-- Whether an emitted statement is a comment. -/
def isOutComment : OutStmt → Bool
  | .comment _ => true
  | _ => false

/-- Number of `__esModule` marker statements in an output list. -/
def markerCount (l : List OutStmt) : Nat := l.countP isMarker

/-- Number of interop helper declarations in an output list. -/
def helperCount (l : List OutStmt) : Nat := l.countP isHelper

/-- Number of comments in an output list. -/
def commentCount (l : List OutStmt) : Nat := l.countP isOutComment

/-- The (name, path) pairs of the `require` statements of an output list,
in emission order. -/
def requireEntries (l : List OutStmt) : List (String × String) :=
  l.filterMap (fun s =>
    match s with
    | .requireStmt n p => some (n, p)
    | _ => none)

/-- The paths of the `require` statements of an output list, in order. -/
def requirePaths (l : List OutStmt) : List String :=
  (requireEntries l).map Prod.snd

/-- The source paths referenced by the module's import and re-export
statements, one entry per referencing statement, in source order. -/
def referencedPaths (m : List Stmt) : List String := m.filterMap stmtPath

/-- First-occurrence deduplication relative to an already-seen list. -/
def dedupFirstFrom (seen : List String) : List String → List String
  | [] => []
  | p :: ps => if p ∈ seen then dedupFirstFrom seen ps else p :: dedupFirstFrom (seen ++ [p]) ps

/-- First-occurrence deduplication of a path list. -/
def dedupFirst (l : List String) : List String := dedupFirstFrom [] l

/-- Whether a statement is an import, export or re-export directive. -/
def isModuleDirective : Stmt → Bool
  | .importNamed _ _ => true
  | .importDefault _ _ => true
  | .exportDecl _ _ => true
  | .exportDefaultDecl _ _ => true
  | .reexportNamed _ _ => true
  | .reexportWildcard _ => true
  | _ => false

/-- Whether a statement is a comment. -/
def isComment : Stmt → Bool
  | .comment _ => true
  | _ => false

/-- Passthrough image of a non-directive statement in the output. -/
def toPassthrough : Stmt → OutStmt
  | .plain t => OutStmt.plain t
  | .assign n r => OutStmt.assign n r
  | .comment t => OutStmt.comment t
  | .unsupported t => OutStmt.plain t
  | _ => OutStmt.plain ""

/-- Read an emitted statement back as an input statement, as the parser
would on already-rewritten plain output. -/
def reparseOut : OutStmt → Stmt
  | .plain t => Stmt.plain t
  | .assign n r => Stmt.assign n r
  | .comment t => Stmt.comment t
  | o => Stmt.plain (printOutStmt o)

/-- One template-list section as rendered by `TemplateList`
(`ITemplateInfo` in TemplateList.tsx): an optional title, a key, and the
templates of the section (only their identities matter here). -/
structure TemplateInfo where
  title : Option String
  key : String
  templates : List String
deriving DecidableEq, Repr

/-- `getTotalTemplateCount` of TemplateList.tsx: the total number of
templates over all sections (`reduce` over the section lengths). -/
def getTotalTemplateCount (templateInfos : List TemplateInfo) : Nat :=
  templateInfos.foldl (fun total ti => total + ti.templates.length) 0

/-- `safeSetFocusedTemplate` of TemplateList.tsx: apply the setter to the
current focused index and clamp the result with
`Math.max(0, Math.min(setter(i), totalCount - 1))`. -/
def safeSetFocusedTemplate (templateInfos : List TemplateInfo)
    (setter : Int → Int) (i : Int) : Int :=
  max 0 (min (setter i) ((getTotalTemplateCount templateInfos : Int) - 1))

/-- The re-clamping effect of TemplateList.tsx (the `React.useEffect` on
`templateInfos`): when the focused index is out of bounds, re-clamp it
through `safeSetFocusedTemplate` with the identity setter. -/
def reclampFocusedTemplate (templateInfos : List TemplateInfo) (i : Int) : Int :=
  if i ≥ (getTotalTemplateCount templateInfos : Int) ∨ i < 0 then
    safeSetFocusedTemplate templateInfos (fun x => x) i
  else i

theorem rewriteAll_append (st : ConvertState) (xs ys : List Stmt) :
    rewriteAll st (xs ++ ys) = rewriteAll st xs ++ rewriteAll (stateAfter st xs) ys := by
  induction xs generalizing st with
  | nil => rfl
  | cons s rest ih => simp [rewriteAll, stateAfter, ih, List.append_assoc]

theorem stmtBody_shapes (st : ConvertState) (s : Stmt) :
    ∀ o ∈ stmtBody st s,
      (∃ n e, o = OutStmt.varBind n e) ∨ (∃ n e, o = OutStmt.exportAssign n e) ∨
      (∃ n, o = OutStmt.wildcardForward n) ∨ (∃ n r, o = OutStmt.assign n r) ∨
      (∃ t, o = OutStmt.plain t) := by
  intro o ho
  cases s with
  | importNamed specs p =>
      simp [stmtBody, analyzeImportSpecs] at ho
      obtain ⟨b, _, rfl⟩ := ho
      exact Or.inl ⟨_, _, rfl⟩
  | importDefault l p =>
      simp [stmtBody] at ho
      exact Or.inl ⟨_, _, ho⟩
  | exportDecl d ns =>
      simp [stmtBody] at ho
      rcases ho with rfl | ⟨n, _, rfl⟩
      · exact Or.inr (Or.inr (Or.inr (Or.inr ⟨_, rfl⟩)))
      · exact Or.inr (Or.inl ⟨_, _, rfl⟩)
  | exportDefaultDecl d n? =>
      cases n? with
      | some n =>
          simp [stmtBody] at ho
          rcases ho with rfl | rfl
          · exact Or.inr (Or.inr (Or.inr (Or.inr ⟨_, rfl⟩)))
          · exact Or.inr (Or.inl ⟨_, _, rfl⟩)
      | none =>
          simp [stmtBody] at ho
          rcases ho with rfl | rfl
          · exact Or.inl ⟨_, _, rfl⟩
          · exact Or.inr (Or.inl ⟨_, _, rfl⟩)
  | reexportNamed es p =>
      simp [stmtBody] at ho
      obtain ⟨e₁, e₂, _, rfl⟩ := ho
      exact Or.inr (Or.inl ⟨_, _, rfl⟩)
  | reexportWildcard p =>
      simp [stmtBody] at ho
      exact Or.inr (Or.inr (Or.inl ⟨_, ho⟩))
  | assign n r =>
      cases hl : st.exported.lookup n with
      | some e =>
          simp [stmtBody, hl] at ho
          rcases ho with rfl | rfl
          · exact Or.inr (Or.inr (Or.inr (Or.inl ⟨_, _, rfl⟩)))
          · exact Or.inr (Or.inl ⟨_, _, rfl⟩)
      | none =>
          simp [stmtBody, hl] at ho
          exact Or.inr (Or.inr (Or.inr (Or.inl ⟨_, _, ho⟩)))
  | plain t =>
      simp [stmtBody] at ho
      exact Or.inr (Or.inr (Or.inr (Or.inr ⟨_, ho⟩)))
  | comment t => simp [stmtBody] at ho
  | unsupported t =>
      simp [stmtBody] at ho
      exact Or.inr (Or.inr (Or.inr (Or.inr ⟨_, ho⟩)))

theorem markerCount_stmtBody (st : ConvertState) (s : Stmt) :
    markerCount (stmtBody st s) = 0 := by
  refine List.countP_eq_zero.mpr (fun o ho => ?_)
  rcases stmtBody_shapes st s o ho with ⟨n, e, rfl⟩ | ⟨n, e, rfl⟩ | ⟨n, rfl⟩ | ⟨n, r, rfl⟩ | ⟨t, rfl⟩ <;>
    simp [isMarker]

theorem helperCount_stmtBody (st : ConvertState) (s : Stmt) :
    helperCount (stmtBody st s) = 0 := by
  refine List.countP_eq_zero.mpr (fun o ho => ?_)
  rcases stmtBody_shapes st s o ho with ⟨n, e, rfl⟩ | ⟨n, e, rfl⟩ | ⟨n, rfl⟩ | ⟨n, r, rfl⟩ | ⟨t, rfl⟩ <;>
    simp [isHelper]

theorem commentCount_stmtBody (st : ConvertState) (s : Stmt) :
    commentCount (stmtBody st s) = 0 := by
  refine List.countP_eq_zero.mpr (fun o ho => ?_)
  rcases stmtBody_shapes st s o ho with ⟨n, e, rfl⟩ | ⟨n, e, rfl⟩ | ⟨n, rfl⟩ | ⟨n, r, rfl⟩ | ⟨t, rfl⟩ <;>
    simp [isOutComment]

theorem requireEntries_stmtBody (st : ConvertState) (s : Stmt) :
    requireEntries (stmtBody st s) = [] := by
  refine List.filterMap_eq_nil_iff.mpr (fun o ho => ?_)
  rcases stmtBody_shapes st s o ho with ⟨n, e, rfl⟩ | ⟨n, e, rfl⟩ | ⟨n, rfl⟩ | ⟨n, r, rfl⟩ | ⟨t, rfl⟩ <;>
    rfl

theorem requireEntries_append (l₁ l₂ : List OutStmt) :
    requireEntries (l₁ ++ l₂) = requireEntries l₁ ++ requireEntries l₂ := by
  simp [requireEntries]

theorem markerCount_append (l₁ l₂ : List OutStmt) :
    markerCount (l₁ ++ l₂) = markerCount l₁ + markerCount l₂ := by
  unfold markerCount
  exact List.countP_append _ _ _

theorem helperCount_append (l₁ l₂ : List OutStmt) :
    helperCount (l₁ ++ l₂) = helperCount l₁ + helperCount l₂ := by
  unfold helperCount
  exact List.countP_append _ _ _

theorem commentCount_append (l₁ l₂ : List OutStmt) :
    commentCount (l₁ ++ l₂) = commentCount l₁ + commentCount l₂ := by
  unfold commentCount
  exact List.countP_append _ _ _

theorem markerCount_stmtRequires (st : ConvertState) (s : Stmt) :
    markerCount (stmtRequires st s) = 0 := by
  cases hp : stmtPath s with
  | none => simp [stmtRequires, hp, markerCount]
  | some p =>
      by_cases hmem : p ∈ st.required <;> simp [stmtRequires, hp, hmem, markerCount, isMarker]

theorem helperCount_stmtRequires (st : ConvertState) (s : Stmt) :
    helperCount (stmtRequires st s) = 0 := by
  cases hp : stmtPath s with
  | none => simp [stmtRequires, hp, helperCount]
  | some p =>
      by_cases hmem : p ∈ st.required <;> simp [stmtRequires, hp, hmem, helperCount, isHelper]

theorem commentCount_stmtRequires (st : ConvertState) (s : Stmt) :
    commentCount (stmtRequires st s) = 0 := by
  cases hp : stmtPath s with
  | none => simp [stmtRequires, hp, commentCount]
  | some p =>
      by_cases hmem : p ∈ st.required <;> simp [stmtRequires, hp, hmem, commentCount, isOutComment]

theorem markerCount_rewriteAll (m : List Stmt) :
    ∀ st, markerCount (rewriteAll st m) = 0 := by
  induction m with
  | nil => intro st; rfl
  | cons s rest ih =>
      intro st
      have h : rewriteAll st (s :: rest)
          = (stmtRequires st s ++ stmtBody st s) ++ rewriteAll (stepState st s) rest := rfl
      rw [h, markerCount_append, markerCount_append, markerCount_stmtRequires,
        markerCount_stmtBody, ih]

theorem helperCount_rewriteAll (m : List Stmt) :
    ∀ st, helperCount (rewriteAll st m) = 0 := by
  induction m with
  | nil => intro st; rfl
  | cons s rest ih =>
      intro st
      have h : rewriteAll st (s :: rest)
          = (stmtRequires st s ++ stmtBody st s) ++ rewriteAll (stepState st s) rest := rfl
      rw [h, helperCount_append, helperCount_append, helperCount_stmtRequires,
        helperCount_stmtBody, ih]

theorem commentCount_rewriteAll (m : List Stmt) :
    ∀ st, commentCount (rewriteAll st m) = 0 := by
  induction m with
  | nil => intro st; rfl
  | cons s rest ih =>
      intro st
      have h : rewriteAll st (s :: rest)
          = (stmtRequires st s ++ stmtBody st s) ++ rewriteAll (stepState st s) rest := rfl
      rw [h, commentCount_append, commentCount_append, commentCount_stmtRequires,
        commentCount_stmtBody, ih]

theorem requireEntries_rewriteAll (m : List Stmt) :
    ∀ st, requireEntries (rewriteAll st m)
      = (dedupFirstFrom st.required (referencedPaths m)).map (fun p => (moduleNameForPath p, p)) := by
  induction m with
  | nil => intro st; rfl
  | cons s rest ih =>
      intro st
      have hsplit : rewriteAll st (s :: rest)
          = (stmtRequires st s ++ stmtBody st s) ++ rewriteAll (stepState st s) rest := rfl
      rw [hsplit, requireEntries_append, requireEntries_append, requireEntries_stmtBody, ih]
      have hreq : (stepState st s).required = stmtNewRequired st s := rfl
      rw [hreq]
      cases hp : stmtPath s with
      | none =>
          have hrefs : referencedPaths (s :: rest) = referencedPaths rest := by
            simp [referencedPaths, List.filterMap_cons, hp]
          rw [hrefs]
          simp [stmtRequires, stmtNewRequired, hp, requireEntries]
      | some p =>
          have hrefs : referencedPaths (s :: rest) = p :: referencedPaths rest := by
            simp [referencedPaths, List.filterMap_cons, hp]
          rw [hrefs]
          by_cases hmem : p ∈ st.required
          · simp [stmtRequires, stmtNewRequired, hp, hmem, requireEntries, dedupFirstFrom]
          · simp [stmtRequires, stmtNewRequired, hp, hmem, requireEntries, dedupFirstFrom]

theorem count_dedupFirstFrom (p : String) (l : List String) :
    ∀ seen, (dedupFirstFrom seen l).count p = if p ∈ l ∧ p ∉ seen then 1 else 0 := by
  induction l with
  | nil => intro seen; simp [dedupFirstFrom]
  | cons x xs ih =>
      intro seen
      rw [dedupFirstFrom]
      by_cases hx : x ∈ seen
      · rw [if_pos hx, ih]
        by_cases hpx : p = x
        · subst hpx
          simp [hx]
        · simp [List.mem_cons, hpx]
      · rw [if_neg hx, List.count_cons, ih]
        by_cases hpx : p = x
        · subst hpx
          simp [hx, List.mem_append]
        · have hxp : ¬ x = p := fun h => hpx h.symm
          simp [List.mem_cons, List.mem_append, hpx, hxp]

theorem requireEntries_convert (m : List Stmt) :
    requireEntries (convertEsModule m)
      = (dedupFirst (referencedPaths m)).map (fun p => (moduleNameForPath p, p)) := by
  have h := requireEntries_rewriteAll m initialState
  have h₁ : requireEntries (if hasExports m then [OutStmt.esModuleMarker] else []) = [] := by
    split <;> rfl
  have h₂ : requireEntries (if hasDefaultImport m then [OutStmt.interopHelperDecl] else []) = [] := by
    split <;> rfl
  rw [convertEsModule, requireEntries_append, requireEntries_append, h₁, h₂, h]
  simp [dedupFirst, initialState]

/-- C1: for every module with at least one export binding or re-export
directive, the output contains the `__esModule` marker statement exactly
once and strictly before any other emitted statement; for every module
without exports or re-exports (including import-only modules) no marker
appears. -/
theorem c1_esmodule_marker_once_and_first (m : List Stmt) :
    markerCount (convertEsModule m) = (if hasExports m then 1 else 0)
    ∧ (hasExports m = true →
        ∃ rest, convertEsModule m = OutStmt.esModuleMarker :: rest ∧ markerCount rest = 0) := by
  have hbody := markerCount_rewriteAll m initialState
  have hm1 : markerCount [OutStmt.esModuleMarker] = 1 := rfl
  have hh0 : markerCount [OutStmt.interopHelperDecl] = 0 := rfl
  have hnil : markerCount ([] : List OutStmt) = 0 := rfl
  have hcons : ∀ l, markerCount (OutStmt.esModuleMarker :: l) = markerCount l + 1 := by
    intro l
    unfold markerCount
    rw [List.countP_cons]
    simp [isMarker]
  constructor
  · cases hx : hasExports m <;> cases hd : hasDefaultImport m <;>
      simp [convertEsModule, hx, hd, markerCount_append, hbody, hm1, hh0, hnil, hcons]
  · intro hx
    refine ⟨rewriteAll initialState m
      ++ (if hasDefaultImport m then [OutStmt.interopHelperDecl] else []), ?_, ?_⟩
    · simp [convertEsModule, hx]
    · rw [markerCount_append, hbody]
      cases hd : hasDefaultImport m <;> simp [hd, hh0, hnil]

/-- C1 witness: a module with one export declaration gets the marker
first and exactly once. -/
theorem c1_witness :
    hasExports [Stmt.exportDecl "function test() \x7b\x7d" ["test"]] = true
    ∧ ∃ rest, convertEsModule [Stmt.exportDecl "function test() \x7b\x7d" ["test"]]
        = OutStmt.esModuleMarker :: rest ∧ markerCount rest = 0 :=
  ⟨by decide,
   (c1_esmodule_marker_once_and_first [Stmt.exportDecl "function test() \x7b\x7d" ["test"]]).2
     (by decide)⟩

/-- C2: for every module and every source path referenced by its import
bindings or re-export directives, the output contains exactly one `require`
call for that path, bound to the synthetic module-local name derived from
the path, and the `require` calls appear in the relative order in which each
path was first referenced. -/
theorem c2_require_coalescing (m : List Stmt) :
    requireEntries (convertEsModule m)
      = (dedupFirst (referencedPaths m)).map (fun p => (moduleNameForPath p, p))
    ∧ ∀ p, (requirePaths (convertEsModule m)).count p
      = if p ∈ referencedPaths m then 1 else 0 := by
  have h := requireEntries_convert m
  refine ⟨h, fun p => ?_⟩
  have hpaths : requirePaths (convertEsModule m) = dedupFirst (referencedPaths m) := by
    simp [requirePaths, h, List.map_map, Function.comp_def]
  rw [hpaths, dedupFirst, count_dedupFirstFrom]
  simp

theorem mem_rewriteAll_of_mem {o : OutStmt} {s : Stmt}
    (hbody : ∀ st, o ∈ stmtBody st s) :
    ∀ (m : List Stmt), s ∈ m → ∀ st, o ∈ rewriteAll st m := by
  intro m
  induction m with
  | nil => intro h; cases h
  | cons t rest ih =>
      intro hs st
      rcases List.mem_cons.mp hs with heq | hmem
      · subst heq
        simp only [rewriteAll, stepOut]
        exact List.mem_append_left _ (List.mem_append_right _ (hbody st))
      · simp only [rewriteAll]
        exact List.mem_append_right _ (ih hmem _)

theorem mem_convert_of_mem {o : OutStmt} {s : Stmt} {m : List Stmt}
    (hbody : ∀ st, o ∈ stmtBody st s) (hs : s ∈ m) : o ∈ convertEsModule m := by
  have hb := mem_rewriteAll_of_mem hbody m hs initialState
  show o ∈ (if hasExports m then [OutStmt.esModuleMarker] else [])
      ++ rewriteAll initialState m
      ++ (if hasDefaultImport m then [OutStmt.interopHelperDecl] else [])
  exact List.mem_append_left _ (List.mem_append_right _ hb)

theorem requirePaths_convert (m : List Stmt) :
    requirePaths (convertEsModule m) = dedupFirst (referencedPaths m) := by
  simp [requirePaths, requireEntries_convert m, List.map_map, Function.comp_def]

/-- C3: for every wildcard re-export `export * from X`, the output requires
path X exactly once and contains the runtime forwarding statement for X's
module name, whose run-time behaviour enumerates the required module's keys,
skips exactly "default" and "__esModule", and copies every other key onto
the exports object. -/
theorem c3_wildcard_reexport_runtime_forwarding (m : List Stmt) (X : String)
    (h : Stmt.reexportWildcard X ∈ m) :
    (requirePaths (convertEsModule m)).count X = 1
    ∧ OutStmt.wildcardForward (moduleNameForPath X) ∈ convertEsModule m
    ∧ ∀ keys k, k ∈ wildcardForwardedKeys keys
        ↔ (k ∈ keys ∧ k ≠ "default" ∧ k ≠ "__esModule") := by
  refine ⟨?_, ?_, ?_⟩
  · have hrefX : X ∈ referencedPaths m := List.mem_filterMap.mpr ⟨_, h, rfl⟩
    rw [requirePaths_convert, dedupFirst, count_dedupFirstFrom]
    simp [hrefX]
  · refine mem_convert_of_mem (fun st => ?_) h
    simp [stmtBody]
  · intro keys k
    simp [wildcardForwardedKeys, List.mem_filter, and_assoc]

/-- C3 witness: the wildcard re-export module `export * from "./store.js"`
requires the path once and contains its forwarding statement. -/
theorem c3_witness :
    Stmt.reexportWildcard "./store.js" ∈ [Stmt.reexportWildcard "./store.js"]
    ∧ (requirePaths (convertEsModule [Stmt.reexportWildcard "./store.js"])).count "./store.js" = 1
    ∧ OutStmt.wildcardForward (moduleNameForPath "./store.js")
        ∈ convertEsModule [Stmt.reexportWildcard "./store.js"] :=
  ⟨by decide,
   (c3_wildcard_reexport_runtime_forwarding _ "./store.js" (by decide)).1,
   (c3_wildcard_reexport_runtime_forwarding _ "./store.js" (by decide)).2.1⟩

/-- C4: `import { a, b as c } from "X"` analyzes to the two import bindings
local a → imported a and local c → imported b on path X, and the rewrite
binds local variable c to the property named by the imported name
(`c = <mod>.b`), never to the property named by the local name. -/
theorem c4_aliased_import_binding (a b c X : String) :
    analyzeImportSpecs [ImportSpec.plain a, ImportSpec.renamed b c] X
      = [⟨a, a, X⟩, ⟨c, b, X⟩]
    ∧ convertEsModule [Stmt.importNamed [ImportSpec.plain a, ImportSpec.renamed b c] X]
      = [OutStmt.requireStmt (moduleNameForPath X) X,
         OutStmt.varBind a (Expr.member (moduleNameForPath X) a),
         OutStmt.varBind c (Expr.member (moduleNameForPath X) b)]
    ∧ ∀ (specs : List ImportSpec) (st : ConvertState),
        stmtBody st (Stmt.importNamed specs X)
          = (analyzeImportSpecs specs X).map
              (fun bnd =>
                OutStmt.varBind bnd.localName (Expr.member (moduleNameForPath X) bnd.importedName)) :=
  ⟨rfl, rfl, fun _ _ => rfl⟩

theorem rewriteAll_all_comments (m : List Stmt) (h : ∀ s ∈ m, isComment s = true) :
    ∀ st, rewriteAll st m = [] := by
  induction m with
  | nil => intro st; rfl
  | cons t rest ih =>
      intro st
      have ht := h t (List.mem_cons_self t rest)
      cases t <;> simp [isComment] at ht
      simp only [rewriteAll, stepOut, stmtRequires, stmtBody, stmtPath, List.nil_append]
      exact ih (fun s hs => h s (List.mem_cons_of_mem _ hs)) _

/-- C5: the transform discards every comment — no comment appears in any
output — and a module whose statements are all comments produces the empty
statement list and the empty output text. -/
theorem c5_comments_discarded (m : List Stmt) :
    commentCount (convertEsModule m) = 0
    ∧ ((∀ s ∈ m, isComment s = true) →
        convertEsModule m = [] ∧ printOutput (convertEsModule m) = "") := by
  have hbody := commentCount_rewriteAll m initialState
  have hm0 : commentCount [OutStmt.esModuleMarker] = 0 := rfl
  have hh0 : commentCount [OutStmt.interopHelperDecl] = 0 := rfl
  have hnil : commentCount ([] : List OutStmt) = 0 := rfl
  have hcons : ∀ l, commentCount (OutStmt.esModuleMarker :: l) = commentCount l := by
    intro l
    unfold commentCount
    rw [List.countP_cons]
    simp [isOutComment]
  constructor
  · cases hx : hasExports m <;> cases hd : hasDefaultImport m <;>
      simp [convertEsModule, hx, hd, commentCount_append, hbody, hm0, hh0, hnil, hcons]
  · intro h
    have hx : hasExports m = false := by
      rw [hasExports, List.any_eq_false]
      intro s hs
      have := h s hs
      cases s <;> simp_all [isComment, addsExport]
    have hd : hasDefaultImport m = false := by
      rw [hasDefaultImport, List.any_eq_false]
      intro s hs
      have := h s hs
      cases s <;> simp_all [isComment, isDefaultImport]
    have hempty : convertEsModule m = [] := by
      simp [convertEsModule, hx, hd, rewriteAll_all_comments m h initialState]
    exact ⟨hempty, by rw [hempty]; rfl⟩

/-- C5 witness: a module consisting of a single line comment converts to
the empty output. -/
theorem c5_witness :
    (∀ s ∈ [Stmt.comment " some comment"], isComment s = true)
    ∧ convertEsModule [Stmt.comment " some comment"] = []
    ∧ printOutput (convertEsModule [Stmt.comment " some comment"]) = "" :=
  ⟨by decide,
   ((c5_comments_discarded [Stmt.comment " some comment"]).2 (by decide)).1,
   ((c5_comments_discarded [Stmt.comment " some comment"]).2 (by decide)).2⟩

/-- C6: the interop helper declaration appears in the output iff the module
has at least one default import; when it appears it appears exactly once,
after all other statements, and every default-import site binds its local
variable to `<interopHelper>(<requiredModuleName>).default`. -/
theorem c6_interop_helper_lifecycle (m : List Stmt) :
    helperCount (convertEsModule m) = (if hasDefaultImport m then 1 else 0)
    ∧ (hasDefaultImport m = true →
        ∃ front, convertEsModule m = front ++ [OutStmt.interopHelperDecl]
          ∧ helperCount front = 0)
    ∧ ∀ l p, Stmt.importDefault l p ∈ m →
        OutStmt.varBind l (Expr.interopDefault (moduleNameForPath p)) ∈ convertEsModule m := by
  have hbody := helperCount_rewriteAll m initialState
  have hm0 : helperCount [OutStmt.esModuleMarker] = 0 := rfl
  have hh1 : helperCount [OutStmt.interopHelperDecl] = 1 := rfl
  have hnil : helperCount ([] : List OutStmt) = 0 := rfl
  have hcons : ∀ l, helperCount (OutStmt.esModuleMarker :: l) = helperCount l := by
    intro l
    unfold helperCount
    rw [List.countP_cons]
    simp [isHelper]
  refine ⟨?_, ?_, ?_⟩
  · cases hx : hasExports m <;> cases hd : hasDefaultImport m <;>
      simp [convertEsModule, hx, hd, helperCount_append, hbody, hm0, hh1, hnil, hcons]
  · intro hd
    refine ⟨(if hasExports m then [OutStmt.esModuleMarker] else [])
      ++ rewriteAll initialState m, ?_, ?_⟩
    · simp [convertEsModule, hd]
    · rw [helperCount_append, hbody]
      cases hx : hasExports m <;> simp [hx, hm0, hnil]
  · intro l p hmem
    refine mem_convert_of_mem (fun st => ?_) hmem
    simp [stmtBody]

/-- C6 witness: a module with a single default import gets the helper
declaration last and binds its local through the helper. -/
theorem c6_witness :
    hasDefaultImport [Stmt.importDefault "a" "./b"] = true
    ∧ (∃ front, convertEsModule [Stmt.importDefault "a" "./b"]
        = front ++ [OutStmt.interopHelperDecl] ∧ helperCount front = 0)
    ∧ OutStmt.varBind "a" (Expr.interopDefault (moduleNameForPath "./b"))
        ∈ convertEsModule [Stmt.importDefault "a" "./b"] :=
  ⟨by decide,
   (c6_interop_helper_lifecycle [Stmt.importDefault "a" "./b"]).2.1 (by decide),
   (c6_interop_helper_lifecycle [Stmt.importDefault "a" "./b"]).2.2 "a" "./b" (by decide)⟩

theorem exported_stateAfter (mid : List Stmt) (h : ∀ s ∈ mid, stmtExports s = []) :
    ∀ st, (stateAfter st mid).exported = st.exported := by
  induction mid with
  | nil => intro st; rfl
  | cons t rest ih =>
      intro st
      have ht := h t (List.mem_cons_self t rest)
      simp only [stateAfter]
      rw [ih (fun s hs => h s (List.mem_cons_of_mem _ hs))]
      simp [stepState, ht]

theorem rewriteAll_mutation_decomp (pre mid post : List Stmt) (f declTxt rhs : String)
    (hmid : ∀ s ∈ mid, stmtExports s = []) (st₀ : ConvertState) :
    ∃ L₁ L₂ L₃,
      rewriteAll st₀ (pre ++ [Stmt.exportDecl declTxt [f]] ++ mid ++ [Stmt.assign f rhs] ++ post)
        = L₁ ++ [OutStmt.exportAssign f (Expr.ident f)] ++ L₂
            ++ [OutStmt.assign f rhs, OutStmt.exportAssign f (Expr.ident f)] ++ L₃ := by
  have h1 : pre ++ [Stmt.exportDecl declTxt [f]] ++ mid ++ [Stmt.assign f rhs] ++ post
      = pre ++ ([Stmt.exportDecl declTxt [f]] ++ (mid ++ ([Stmt.assign f rhs] ++ post))) := by
    simp [List.append_assoc]
  rw [h1, rewriteAll_append, rewriteAll_append, rewriteAll_append, rewriteAll_append]
  have hst₂ : stateAfter (stateAfter st₀ pre) [Stmt.exportDecl declTxt [f]]
      = stepState (stateAfter st₀ pre) (Stmt.exportDecl declTxt [f]) := by
    simp [stateAfter]
  rw [hst₂]
  have he : rewriteAll (stateAfter st₀ pre) [Stmt.exportDecl declTxt [f]]
      = [OutStmt.plain declTxt, OutStmt.exportAssign f (Expr.ident f)] := by
    simp [rewriteAll, stepOut, stmtRequires, stmtPath, stmtBody]
  have hexp : (stateAfter (stepState (stateAfter st₀ pre) (Stmt.exportDecl declTxt [f])) mid).exported
      = (f, f) :: (stateAfter st₀ pre).exported := by
    rw [exported_stateAfter mid hmid]
    simp [stepState, stmtExports]
  have hlook : ((stateAfter (stepState (stateAfter st₀ pre)
      (Stmt.exportDecl declTxt [f])) mid).exported).lookup f = some f := by
    rw [hexp]
    simp [List.lookup]
  have hasn : rewriteAll (stateAfter (stepState (stateAfter st₀ pre)
      (Stmt.exportDecl declTxt [f])) mid) [Stmt.assign f rhs]
      = [OutStmt.assign f rhs, OutStmt.exportAssign f (Expr.ident f)] := by
    simp [rewriteAll, stepOut, stmtRequires, stmtPath, stmtBody, hlook]
  rw [he, hasn]
  refine ⟨rewriteAll st₀ pre ++ [OutStmt.plain declTxt],
    rewriteAll (stepState (stateAfter st₀ pre) (Stmt.exportDecl declTxt [f])) mid,
    rewriteAll (stateAfter (stateAfter (stepState (stateAfter st₀ pre)
      (Stmt.exportDecl declTxt [f])) mid) [Stmt.assign f rhs]) post, ?_⟩
  simp [List.append_assoc]

/-- C7: for every module exporting a name f and later containing a
top-level reassignment to f, the output contains the export assignment for
f's initial value before the mutating statement's export re-affirmation, in
original program order, and each mutation to an exported name is re-emitted
as its own export-update statement immediately after the mutating
statement (mutations are not coalesced). -/
theorem c7_export_mutation_order (pre mid post : List Stmt) (f declTxt rhs : String)
    (hmid : ∀ s ∈ mid, stmtExports s = []) :
    (∃ L₁ L₂ L₃,
      convertEsModule (pre ++ [Stmt.exportDecl declTxt [f]] ++ mid ++ [Stmt.assign f rhs] ++ post)
        = L₁ ++ [OutStmt.exportAssign f (Expr.ident f)] ++ L₂
            ++ [OutStmt.assign f rhs, OutStmt.exportAssign f (Expr.ident f)] ++ L₃)
    ∧ ∀ (st : ConvertState) (g r e : String), st.exported.lookup g = some e →
        stmtBody st (Stmt.assign g r) = [OutStmt.assign g r, OutStmt.exportAssign e (Expr.ident g)] := by
  refine ⟨?_, fun st g r e h => by simp [stmtBody, h]⟩
  obtain ⟨L₁, L₂, L₃, hdec⟩ :=
    rewriteAll_mutation_decomp pre mid post f declTxt rhs hmid initialState
  refine ⟨(if hasExports (pre ++ [Stmt.exportDecl declTxt [f]] ++ mid
        ++ [Stmt.assign f rhs] ++ post) then [OutStmt.esModuleMarker] else []) ++ L₁,
    L₂,
    L₃ ++ (if hasDefaultImport (pre ++ [Stmt.exportDecl declTxt [f]] ++ mid
        ++ [Stmt.assign f rhs] ++ post) then [OutStmt.interopHelperDecl] else []), ?_⟩
  unfold convertEsModule
  rw [hdec]
  simp [List.append_assoc]

/-- C7 witness: the one-export one-mutation module
`export function test ...; test = 5` decomposes as required. -/
theorem c7_witness :
    (∀ s ∈ ([] : List Stmt), stmtExports s = [])
    ∧ ∃ L₁ L₂ L₃,
        convertEsModule ([] ++ [Stmt.exportDecl "function test() \x7b\x7d" ["test"]] ++ []
            ++ [Stmt.assign "test" "5"] ++ [])
          = L₁ ++ [OutStmt.exportAssign "test" (Expr.ident "test")] ++ L₂
              ++ [OutStmt.assign "test" "5", OutStmt.exportAssign "test" (Expr.ident "test")] ++ L₃ :=
  ⟨by simp,
   (c7_export_mutation_order [] [] [] "test" "function test() \x7b\x7d" "5" (by simp)).1⟩

theorem addsExport_of_not_directive (s : Stmt) (h : isModuleDirective s = false) :
    addsExport s = false := by
  cases s <;> simp_all [isModuleDirective, addsExport]

theorem isDefaultImport_of_not_directive (s : Stmt) (h : isModuleDirective s = false) :
    isDefaultImport s = false := by
  cases s <;> simp_all [isModuleDirective, isDefaultImport]

theorem rewriteAll_passthrough (m : List Stmt)
    (h : ∀ s ∈ m, isModuleDirective s = false) :
    ∀ st, st.exported = [] →
      rewriteAll st m = (m.filter (fun s => !(isComment s))).map toPassthrough
      ∧ stateAfter st m = st := by
  induction m with
  | nil => intro st h0; exact ⟨rfl, rfl⟩
  | cons t rest ih =>
      intro st h0
      have ht := h t (List.mem_cons_self t rest)
      have hrest := fun s hs => h s (List.mem_cons_of_mem t hs)
      cases t with
      | assign n r =>
          have hstep : stepState st (Stmt.assign n r) = st := rfl
          have hlook : st.exported.lookup n = none := by rw [h0]; rfl
          obtain ⟨ihout, ihst⟩ := ih hrest st h0
          constructor
          · simp only [rewriteAll, hstep, ihout, stepOut, stmtRequires, stmtPath, stmtBody, hlook,
              List.filter_cons, isComment, List.map_cons, Bool.not_false, if_true]
            rfl
          · simp only [stateAfter, hstep, ihst]
      | plain txt =>
          have hstep : stepState st (Stmt.plain txt) = st := rfl
          obtain ⟨ihout, ihst⟩ := ih hrest st h0
          constructor
          · simp only [rewriteAll, hstep, ihout, stepOut, stmtRequires, stmtPath, stmtBody,
              List.filter_cons, isComment, List.map_cons, Bool.not_false, if_true]
            rfl
          · simp only [stateAfter, hstep, ihst]
      | comment txt =>
          have hstep : stepState st (Stmt.comment txt) = st := rfl
          obtain ⟨ihout, ihst⟩ := ih hrest st h0
          constructor
          · simp only [rewriteAll, hstep, ihout, stepOut, stmtRequires, stmtPath, stmtBody,
              List.filter_cons, isComment, Bool.not_true, if_false]
            rfl
          · simp only [stateAfter, hstep, ihst]
      | unsupported txt =>
          have hstep : stepState st (Stmt.unsupported txt) = st := rfl
          obtain ⟨ihout, ihst⟩ := ih hrest st h0
          constructor
          · simp only [rewriteAll, hstep, ihout, stepOut, stmtRequires, stmtPath, stmtBody,
              List.filter_cons, isComment, List.map_cons, Bool.not_false, if_true]
            rfl
          · simp only [stateAfter, hstep, ihst]
      | importNamed specs p => simp [isModuleDirective] at ht
      | importDefault l p => simp [isModuleDirective] at ht
      | exportDecl d ns => simp [isModuleDirective] at ht
      | exportDefaultDecl d n? => simp [isModuleDirective] at ht
      | reexportNamed es p => simp [isModuleDirective] at ht
      | reexportWildcard p => simp [isModuleDirective] at ht

theorem convert_passthrough (m : List Stmt)
    (h : ∀ s ∈ m, isModuleDirective s = false) :
    convertEsModule m = (m.filter (fun s => !(isComment s))).map toPassthrough := by
  have hx : hasExports m = false := by
    rw [hasExports, List.any_eq_false]
    intro s hs
    simp [addsExport_of_not_directive s (h s hs)]
  have hd : hasDefaultImport m = false := by
    rw [hasDefaultImport, List.any_eq_false]
    intro s hs
    simp [isDefaultImport_of_not_directive s (h s hs)]
  have hbody := (rewriteAll_passthrough m h initialState rfl).1
  simp [convertEsModule, hx, hd, hbody]

theorem print_toPassthrough (s : Stmt) (h : isModuleDirective s = false) :
    printOutStmt (toPassthrough s) = printStmt s := by
  cases s <;> simp_all [isModuleDirective] <;> rfl

theorem passthrough_roundtrip (s : Stmt) :
    toPassthrough (reparseOut (toPassthrough s)) = toPassthrough s := by
  cases s <;> rfl

/-- C8: for every module with zero import/export/re-export statements, the
transform is the identity on the source text up to comment stripping —
byte-identical when no comments are present, with no marker and no helper
added — and re-running the transform on the reparsed output returns the
same output. -/
theorem c8_noop_identity_idempotence (m : List Stmt)
    (h : ∀ s ∈ m, isModuleDirective s = false) :
    printOutput (convertEsModule m) = printModule (m.filter (fun s => !(isComment s)))
    ∧ ((∀ s ∈ m, isComment s = false) → printOutput (convertEsModule m) = printModule m)
    ∧ markerCount (convertEsModule m) = 0
    ∧ helperCount (convertEsModule m) = 0
    ∧ convertEsModule ((convertEsModule m).map reparseOut) = convertEsModule m := by
  have hconv := convert_passthrough m h
  have htext : printOutput (convertEsModule m)
      = printModule (m.filter (fun s => !(isComment s))) := by
    rw [hconv, printOutput, printModule, List.map_map]
    congr 1
    refine List.map_congr_left (fun s hs => ?_)
    exact print_toPassthrough s (h s (List.mem_of_mem_filter hs))
  refine ⟨htext, fun hnc => ?_, ?_, ?_, ?_⟩
  · have : m.filter (fun s => !(isComment s)) = m :=
      List.filter_eq_self.mpr (fun s hs => by simp [hnc s hs])
    rw [htext, this]
  · have hx : hasExports m = false := by
      rw [hasExports, List.any_eq_false]
      intro s hs
      simp [addsExport_of_not_directive s (h s hs)]
    have hd : hasDefaultImport m = false := by
      rw [hasDefaultImport, List.any_eq_false]
      intro s hs
      simp [isDefaultImport_of_not_directive s (h s hs)]
    simp only [convertEsModule, hx, hd, if_false, Bool.false_eq_true, List.nil_append,
      List.append_nil]
    exact markerCount_rewriteAll m initialState
  · have hx : hasExports m = false := by
      rw [hasExports, List.any_eq_false]
      intro s hs
      simp [addsExport_of_not_directive s (h s hs)]
    have hd : hasDefaultImport m = false := by
      rw [hasDefaultImport, List.any_eq_false]
      intro s hs
      simp [isDefaultImport_of_not_directive s (h s hs)]
    simp only [convertEsModule, hx, hd, if_false, Bool.false_eq_true, List.nil_append,
      List.append_nil]
    exact helperCount_rewriteAll m initialState
  · have hm' : ∀ s ∈ (convertEsModule m).map reparseOut, isModuleDirective s = false := by
      intro s hs
      obtain ⟨o, _, rfl⟩ := List.mem_map.mp hs
      cases o <;> rfl
    have hcc : commentCount (convertEsModule m) = 0 := by
      have hx : hasExports m = false := by
        rw [hasExports, List.any_eq_false]
        intro s hs
        simp [addsExport_of_not_directive s (h s hs)]
      have hd : hasDefaultImport m = false := by
        rw [hasDefaultImport, List.any_eq_false]
        intro s hs
        simp [isDefaultImport_of_not_directive s (h s hs)]
      simp only [convertEsModule, hx, hd, if_false, Bool.false_eq_true, List.nil_append,
        List.append_nil]
      exact commentCount_rewriteAll m initialState
    have hnoc : ∀ o ∈ convertEsModule m, isOutComment o = false := by
      intro o ho
      have := List.countP_eq_zero.mp hcc o ho
      simpa using this
    have hm'nc : ∀ s ∈ (convertEsModule m).map reparseOut, isComment s = false := by
      intro s hs
      obtain ⟨o, hom, rfl⟩ := List.mem_map.mp hs
      have := hnoc o hom
      cases o <;> simp_all [isOutComment, reparseOut, isComment]
    have h2 := convert_passthrough ((convertEsModule m).map reparseOut) hm'
    have hfilter : ((convertEsModule m).map reparseOut).filter (fun s => !(isComment s))
        = (convertEsModule m).map reparseOut :=
      List.filter_eq_self.mpr (fun s hs => by simp [hm'nc s hs])
    rw [h2, hfilter, hconv, List.map_map, List.map_map]
    exact List.map_congr_left (fun s _ => passthrough_roundtrip s)

/-- C8 witness: a module with one residual statement round-trips
byte-identically and idempotently. -/
theorem c8_witness :
    (∀ s ∈ [Stmt.plain "var a = 5;"], isModuleDirective s = false)
    ∧ printOutput (convertEsModule [Stmt.plain "var a = 5;"]) = printModule [Stmt.plain "var a = 5;"]
    ∧ convertEsModule ((convertEsModule [Stmt.plain "var a = 5;"]).map reparseOut)
        = convertEsModule [Stmt.plain "var a = 5;"] :=
  ⟨by decide,
   (c8_noop_identity_idempotence [Stmt.plain "var a = 5;"] (by decide)).2.1 (by decide),
   (c8_noop_identity_idempotence [Stmt.plain "var a = 5;"] (by decide)).2.2.2.2⟩

theorem getLast_append_singleton {α : Type} (l : List α) (a : α) :
    (l ++ [a]).getLast? = some a := by
  induction l with
  | nil => rfl
  | cons x xs ih =>
      rw [List.cons_append, List.getLast?_cons, ih]
      rfl

/-- C9: the transform is deterministic and pure — the result of an
invocation on a module (output statements on success, the identical failure
on an unsupported construct) is independent of which other invocations ran
before it; identical input always yields the identical result. -/
theorem c9_deterministic_pure (h₁ h₂ : List (List Stmt)) (m : List Stmt) :
    (runAll (h₁ ++ [m])).getLast? = some (convertChecked m)
    ∧ (runAll (h₁ ++ [m])).getLast? = (runAll (h₂ ++ [m])).getLast?
    ∧ (m.any isUnsupported = false → convertChecked m = Except.ok (convertEsModule m))
    ∧ (m.any isUnsupported = true → convertChecked m = Except.error "UnsupportedConstruct") := by
  have hlast : ∀ (hist : List (List Stmt)),
      (runAll (hist ++ [m])).getLast? = some (convertChecked m) := by
    intro hist
    rw [runAll, List.map_append]
    exact getLast_append_singleton _ _
  refine ⟨hlast h₁, by rw [hlast h₁, hlast h₂], fun hu => ?_, fun hu => ?_⟩
  · simp [convertChecked, hu]
  · simp [convertChecked, hu]

/-- C9 witness: the invocation result on a sample module is the same after
two different histories, and success and failure are as specified. -/
theorem c9_witness :
    (runAll ([] ++ [[Stmt.plain "var x;"]])).getLast?
      = (runAll ([[Stmt.comment "other"]] ++ [[Stmt.plain "var x;"]])).getLast?
    ∧ ([Stmt.plain "var x;"].any isUnsupported = false
        ∧ convertChecked [Stmt.plain "var x;"] = Except.ok (convertEsModule [Stmt.plain "var x;"])) :=
  ⟨(c9_deterministic_pure [] [[Stmt.comment "other"]] [Stmt.plain "var x;"]).2.1,
   by decide,
   (c9_deterministic_pure [] [] [Stmt.plain "var x;"]).2.2.1 (by decide)⟩

/-- C10: every update of the focused-template index through
`safeSetFocusedTemplate` clamps the setter's result to
`max 0 (min (setter i) (totalTemplateCount - 1))`, so the new index is at
least 0 and, whenever the total template count is at least 1, at most
`totalTemplateCount - 1`; when the template list changes, an out-of-bounds
index is re-clamped into this range. -/
theorem c10_focused_template_clamped (templateInfos : List TemplateInfo)
    (setter : Int → Int) (i : Int) :
    safeSetFocusedTemplate templateInfos setter i
      = max 0 (min (setter i) ((getTotalTemplateCount templateInfos : Int) - 1))
    ∧ 0 ≤ safeSetFocusedTemplate templateInfos setter i
    ∧ (1 ≤ getTotalTemplateCount templateInfos →
        safeSetFocusedTemplate templateInfos setter i
          ≤ (getTotalTemplateCount templateInfos : Int) - 1)
    ∧ 0 ≤ reclampFocusedTemplate templateInfos i
    ∧ (1 ≤ getTotalTemplateCount templateInfos →
        reclampFocusedTemplate templateInfos i
          ≤ (getTotalTemplateCount templateInfos : Int) - 1) := by
  refine ⟨rfl, le_max_left 0 _, fun h => ?_, ?_, fun h => ?_⟩
  · have h' : (1 : Int) ≤ (getTotalTemplateCount templateInfos : Int) := by exact_mod_cast h
    exact max_le (by omega) (min_le_right _ _)
  · unfold reclampFocusedTemplate
    split
    · exact le_max_left 0 _
    · next hc => omega
  · have h' : (1 : Int) ≤ (getTotalTemplateCount templateInfos : Int) := by exact_mod_cast h
    unfold reclampFocusedTemplate
    split
    · exact max_le (by omega) (min_le_right _ _)
    · next hc => omega

/-- C10 witness: with one section of two templates, an overshooting setter
is clamped to index 1 and an out-of-bounds index 7 is re-clamped into
range. -/
theorem c10_witness :
    1 ≤ getTotalTemplateCount [TemplateInfo.mk none "react" ["a", "b"]]
    ∧ safeSetFocusedTemplate [TemplateInfo.mk none "react" ["a", "b"]] (fun x => x + 5) 0
        ≤ (getTotalTemplateCount [TemplateInfo.mk none "react" ["a", "b"]] : Int) - 1
    ∧ reclampFocusedTemplate [TemplateInfo.mk none "react" ["a", "b"]] 7
        ≤ (getTotalTemplateCount [TemplateInfo.mk none "react" ["a", "b"]] : Int) - 1 :=
  ⟨by decide,
   (c10_focused_template_clamped [TemplateInfo.mk none "react" ["a", "b"]]
     (fun x => x + 5) 0).2.2.1 (by decide),
   (c10_focused_template_clamped [TemplateInfo.mk none "react" ["a", "b"]]
     (fun x => x + 5) 7).2.2.2.2 (by decide)⟩
